import Mathlib

/-!
Verification development for the adobeA1 PDF outline extraction pipeline.
The Python sources (PDFOutlineExtractor.py, TitleFinder.py, cover_page.py,
main.py) are shallowly embedded: font sizes and coordinates become exact
rationals, fallible operations of the external PDF layout library become
Option values, and the per-document mutable accumulator state is threaded
explicitly.  Regular expressions used by the source are hand-compiled to
deterministic recognizers; each recognizer's doc comment records the exact
pattern it implements.  Python string semantics (strip, split, lower,
isupper, isdigit, substring count) are reproduced for the ASCII inputs the
pipeline deals with.
-/

/-- Python whitespace class (the characters matched by the regex class
backslash-s and stripped by str.strip for ASCII text). -/
def isPySpace (c : Char) : Bool :=
  c = ' ' || c = '\t' || c = '\n' || c = '\r' || c = '\x0b' || c = '\x0c'

/-- A word character for the regex class backslash-w (ASCII model):
letters, digits or underscore. -/
def isWordCh (c : Char) : Bool :=
  c.isAlpha || c.isDigit || c = '_'

/-- Python str.strip() : remove leading and trailing whitespace. -/
def stripStr (s : String) : String :=
  ⟨((s.data.dropWhile isPySpace).reverse.dropWhile isPySpace).reverse⟩

/-- Python str.lower() (ASCII model). -/
def toLowerStr (s : String) : String :=
  ⟨s.data.map Char.toLower⟩

/-- Helper for splitWs: walk the characters keeping the (reversed) current
word in the accumulator, emitting it when whitespace or the end is hit. -/
def splitWsGo : List Char → List Char → List String
  | [], acc => if acc.isEmpty then [] else [⟨acc.reverse⟩]
  | c :: rest, acc =>
    if isPySpace c then
      if acc.isEmpty then splitWsGo rest []
      else ⟨acc.reverse⟩ :: splitWsGo rest []
    else splitWsGo rest (c :: acc)

/-- Python str.split() with no arguments: split on whitespace runs,
dropping empty pieces. -/
def splitWs (s : String) : List String := splitWsGo s.data []

/-- Python str.isupper(): at least one cased character and no lowercase
character (ASCII model). -/
def isUpperStr (s : String) : Bool :=
  (s.data.any fun c => c.isUpper || c.isLower) && (s.data.all fun c => !c.isLower)

/-- Python str.isdigit(): nonempty and all characters are digits
(ASCII model). -/
def isDigitStr (s : String) : Bool :=
  !s.data.isEmpty && s.data.all Char.isDigit

/-- Membership of a character in a list-of-characters class. -/
def charIn (cs : List Char) (c : Char) : Bool := cs.contains c

/-- Python str.endswith for a one-character suffix (list-based model of the
string operation). -/
def pyEndsWithCh (s : String) (c : Char) : Bool :=
  match s.data.getLast? with
  | some d => d = c
  | none => false

/-- Python containment of a single character in a string (list-based model
of the in operator). -/
def pyContainsCh (s : String) (c : Char) : Bool := s.data.contains c

/-- One entry of the outline under construction.  The source stores the
depth as the string "H1"/"H2"/"H3"; since int(level[1]) and the format
string "H" followed by the number are mutually inverse on the one-digit
depths the pipeline produces, the depth is embedded directly as a natural
number (level = n stands for the string "H" ++ toString n). -/
structure OutlineEntry where
  level : Nat
  text : String
  page : Nat
deriving DecidableEq, Repr

/-- The recognizer for the anchored regex of PDFOutlineExtractor lines 240,
265 context, and 496: digits, then zero or more groups of a dot followed by
digits, then optional whitespace, as a prefix of the text (re.match with no
trailing anchor).  Because every component after the mandatory leading
digit run can match the empty string, the whole pattern matches exactly
when the text starts with a digit; the definition spells out the leading
obligation. -/
def patNumDotsWs (s : String) : Bool :=
  match s.data with
  | [] => false
  | c :: _ => c.isDigit

/-- The fixed set of common tabular-field labels excluded by
_refine_hierarchy (PDFOutlineExtractor.py lines 486-491). -/
def commonShortWords : List String :=
  ["s.no", "name", "date", "id", "no", "description", "quantity", "total",
   "relationship", "relation", "price", "unit", "value", "type", "status",
   "comments", "notes", "remarks", "subtotal", "tax", "grand total", "item",
   "code", "ref", "part", "model", "serial", "data", "key", "number"]

/-- The drop test of _refine_hierarchy lines 493-497: lowercase the text,
keep only lowercase letters, digits and whitespace, strip; drop when the
result is a single word contained in the excluded-label set and the
original text does not start with a numbering prefix. -/
def isShortWordDrop (text : String) : Bool :=
  let cleaned := stripStr ⟨(toLowerStr text).data.filter
    (fun c => c.isLower || c.isDigit || isPySpace c)⟩
  (splitWs cleaned).length = 1 && commonShortWords.contains cleaned
    && !patNumDotsWs text

/-- First pass of _refine_hierarchy (lines 459-470): drop an entry when it
is an exact duplicate (same text, level and page) of the immediately
preceding kept entry. -/
def dedupPass : Option OutlineEntry → List OutlineEntry → List OutlineEntry
  | _, [] => []
  | last, e :: es =>
    match last with
    | some l =>
      if e.text = l.text ∧ e.level = l.level ∧ e.page = l.page then
        dedupPass last es
      else
        e :: dedupPass (some e) es
    | none => e :: dedupPass (some e) es

/-- The depth clamp of _refine_hierarchy lines 480-484: when the current
depth exceeds the previous kept depth plus one, it is lowered to exactly
one more than the previous kept depth. -/
def clampEntry (prev e : OutlineEntry) : OutlineEntry :=
  if e.level > prev.level + 1 then { e with level := prev.level + 1 } else e

/-- Second pass of _refine_hierarchy (lines 472-499), after the first kept
entry: clamp a depth that exceeds the previous kept depth plus one, then
drop residual single-word tabular labels (the clamp precedes the drop test
in the source; the test reads only the text, which the clamp leaves
unchanged). -/
def cleanPass (prev : OutlineEntry) : List OutlineEntry → List OutlineEntry
  | [] => []
  | e :: es =>
    if isShortWordDrop (clampEntry prev e).text then cleanPass prev es
    else clampEntry prev e :: cleanPass (clampEntry prev e) es

/-- _refine_hierarchy (PDFOutlineExtractor.py lines 455-501). -/
def refineHierarchy (outlineCandidates : List OutlineEntry) : List OutlineEntry :=
  match dedupPass none outlineCandidates with
  | [] => []
  | h :: t => h :: cleanPass h t

/-! ### Hand-compiled recognizers for the regex battery

Each recognizer implements the exact regular expression quoted in its doc
comment, as used through re.match (anchored at the start of the text) or
re.search.  The dollar anchor is modelled as strict end of string; Python
additionally lets it match before one trailing newline, but every string
the source feeds to these patterns has been stripped of whitespace first,
so no trailing newline can occur.  Where a greedy repetition is compiled
to maximal munch, the following pattern element cannot consume characters
the repetition gave up (digits or dots where whitespace or the end is
required), so backtracking never changes the outcome. -/

/-- Consume leading Python whitespace (the regex element backslash-s star). -/
def dropPyWs (l : List Char) : List Char := l.dropWhile isPySpace

/-- Consume one-or-more whitespace (backslash-s plus); none when the first
character is not whitespace. -/
def ws1 (l : List Char) : Option (List Char) :=
  match l with
  | c :: _ => if isPySpace c then some (l.dropWhile isPySpace) else none
  | [] => none

/-- Consume one-or-more digits (backslash-d plus). -/
def digits1 (l : List Char) : Option (List Char) :=
  match l with
  | c :: _ => if c.isDigit then some (l.dropWhile Char.isDigit) else none
  | [] => none

/-- Consume one-or-more word characters (backslash-w plus). -/
def word1 (l : List Char) : Option (List Char) :=
  match l with
  | c :: _ => if isWordCh c then some (l.dropWhile isWordCh) else none
  | [] => none

/-- Consume a literal, case-insensitively; the literal is given lowercase. -/
def litCI : List Char → List Char → Option (List Char)
  | [], l => some l
  | _ :: _, [] => none
  | p :: ps, c :: cs => if c.toLower = p then litCI ps cs else none

/-- Fuel-driven core of dotDigitsRem; the fuel starts at the list length,
which bounds the number of groups. -/
def dotDigitsRemGo : Nat → List Char → List Char
  | 0, l => l
  | fuel + 1, l =>
    match l with
    | '.' :: c :: rest =>
      if c.isDigit then dotDigitsRemGo fuel ((c :: rest).dropWhile Char.isDigit)
      else l
    | _ => l

/-- Consume as many groups of a dot followed by digits as possible (the
regex element: open group, backslash-dot, backslash-d plus, close group,
star), returning the remaining suffix. -/
def dotDigitsRem (l : List Char) : List Char := dotDigitsRemGo l.length l

/-- Pattern 1 of non_heading_patterns:
anchored (figure|table|appendix|note:) followed by a word boundary,
IGNORECASE.  The boundary after the first three alternatives (ending in a
word character) requires a non-word character or the end; after "note:"
(ending in a non-word character) it requires a word character. -/
def patFigureEtc (s : String) : Bool :=
  let l := s.data
  let afterWord : List Char → Bool := fun rest =>
    match rest with
    | [] => true
    | c :: _ => !isWordCh c
  let afterNonWord : List Char → Bool := fun rest =>
    match rest with
    | [] => false
    | c :: _ => isWordCh c
  (match litCI "figure".data l with | some r => afterWord r | none => false) ||
  (match litCI "table".data l with | some r => afterWord r | none => false) ||
  (match litCI "appendix".data l with | some r => afterWord r | none => false) ||
  (match litCI "note:".data l with | some r => afterNonWord r | none => false)

/-- Pattern 2: anchored bullet characters (the class with the bullet dot,
hyphen, asterisk and middle dot) followed by one whitespace. -/
def patBulletSpace (s : String) : Bool :=
  match s.data with
  | c :: d :: _ => charIn ['•', '-', '*', '·'] c && isPySpace d
  | _ => false

/-- Pattern 3: anchored digits, one slash or hyphen, digits, end. -/
def patNumSlashNum (s : String) : Bool :=
  match digits1 s.data with
  | some (c :: rest) =>
    (c = '/' || c = '-') &&
      (match digits1 rest with
       | some [] => true
       | _ => false)
  | _ => false

/-- Pattern 4: anchored one ASCII letter, digits, end. -/
def patLetterDigits (s : String) : Bool :=
  match s.data with
  | c :: rest =>
    c.isAlpha &&
      (match digits1 rest with
       | some [] => true
       | _ => false)
  | [] => false

/-- Pattern 5: anchored optional whitespace, digits, optional whitespace,
end. -/
def patBareNumber (s : String) : Bool :=
  match digits1 (dropPyWs s.data) with
  | some r => (dropPyWs r).isEmpty
  | none => false

/-- Pattern 6: anchored one uppercase letter, any ASCII letters, a colon,
end. -/
def patCapWordColon (s : String) : Bool :=
  match s.data with
  | c :: rest =>
    c.isUpper &&
      (match rest.dropWhile Char.isAlpha with
       | [':'] => true
       | _ => false)
  | [] => false

/-- Pattern 7: anchored word characters, a slash, word characters, a
colon, end. -/
def patWordSlashWordColon (s : String) : Bool :=
  match word1 s.data with
  | some ('/' :: r2) =>
    (match word1 r2 with
     | some [':'] => true
     | _ => false)
  | _ => false

/-- Pattern 8: anchored digits, a dot, optional whitespace, word
characters, a colon, end. -/
def patNumDotWordColon (s : String) : Bool :=
  match digits1 s.data with
  | some ('.' :: r) =>
    (match word1 (dropPyWs r) with
     | some [':'] => true
     | _ => false)
  | _ => false

/-- Pattern 9: anchored serial-number label alternation with optional dots
(s.no and sr.no variants), IGNORECASE, end; expanded to the eight literal
strings the alternation generates. -/
def patSNo (s : String) : Bool :=
  ["sno", "s.no", "sno.", "s.no.", "srno", "sr.no", "srno.", "sr.no."].contains
    (toLowerStr s)

/-- Pattern 10: anchored alternation of bare form-field labels, IGNORECASE,
end: full-string case-insensitive membership in the label list of
PDFOutlineExtractor.py line 35. -/
def patFormLabel (s : String) : Bool :=
  ["name", "date", "address", "phone", "email", "id", "sex", "gender", "age",
   "signature", "city", "state", "zip", "country", "total", "amount", "item",
   "quantity", "description", "relation", "relationship", "value", "unit",
   "price", "type", "status", "comments", "notes", "remarks", "subtotal",
   "tax", "grand total"].contains (toLowerStr s)

/-- Pattern 11: anchored optional whitespace, the copyright sign, optional
whitespace, four digits; the trailing whitespace-star of the pattern always
matches, so the match succeeds once four digits are read. -/
def patCopyrightYear (s : String) : Bool :=
  match dropPyWs s.data with
  | '©' :: r =>
    (match dropPyWs r with
     | a :: b :: c :: d :: _ => a.isDigit && b.isDigit && c.isDigit && d.isDigit
     | _ => false)
  | _ => false

/-- Pattern 12: anchored optional whitespace, the literal
"all rights reserved", optional whitespace, end, IGNORECASE. -/
def patAllRights (s : String) : Bool :=
  match litCI "all rights reserved".data (dropPyWs s.data) with
  | some r => (dropPyWs r).isEmpty
  | none => false

/-- Pattern 13: anchored optional whitespace, "confidential", optional
whitespace, end, IGNORECASE. -/
def patConfidentialW (s : String) : Bool :=
  match litCI "confidential".data (dropPyWs s.data) with
  | some r => (dropPyWs r).isEmpty
  | none => false

/-- Pattern 14: anchored optional whitespace, "document", whitespace,
"id:", IGNORECASE; a prefix match (the pattern carries no end anchor). -/
def patDocumentIdPre (s : String) : Bool :=
  match litCI "document".data (dropPyWs s.data) with
  | some r =>
    (match ws1 r with
     | some r2 => (litCI "id:".data r2).isSome
     | none => false)
  | none => false

/-- Pattern 15: anchored optional whitespace, "page", whitespace, digits,
whitespace, "of", whitespace, digits, optional whitespace, end,
IGNORECASE. -/
def patPageOf (s : String) : Bool :=
  match litCI "page".data (dropPyWs s.data) with
  | some r =>
    (match ws1 r with
     | some r2 =>
       (match digits1 r2 with
        | some r3 =>
          (match ws1 r3 with
           | some r4 =>
             (match litCI "of".data r4 with
              | some r5 =>
                (match ws1 r5 with
                 | some r6 =>
                   (match digits1 r6 with
                    | some r7 => (dropPyWs r7).isEmpty
                    | none => false)
                 | none => false)
              | none => false)
           | none => false)
        | none => false)
     | none => false)
  | none => false

/-- Pattern 16: anchored optional whitespace, "disclaimer", optional
whitespace, end, IGNORECASE. -/
def patDisclaimerW (s : String) : Bool :=
  match litCI "disclaimer".data (dropPyWs s.data) with
  | some r => (dropPyWs r).isEmpty
  | none => false

/-- Pattern 17: anchored optional whitespace, "copyright", optional
whitespace, end, IGNORECASE. -/
def patCopyrightWord (s : String) : Bool :=
  match litCI "copyright".data (dropPyWs s.data) with
  | some r => (dropPyWs r).isEmpty
  | none => false

/-- Pattern 18: anchored optional whitespace, "prepared", whitespace,
"by:", IGNORECASE; a prefix match (no end anchor). -/
def patPreparedBy (s : String) : Bool :=
  match litCI "prepared".data (dropPyWs s.data) with
  | some r =>
    (match ws1 r with
     | some r2 => (litCI "by:".data r2).isSome
     | none => false)
  | none => false

/-- Pattern 19: anchored optional whitespace, "for", whitespace,
"internal", whitespace, "use", whitespace, "only", optional whitespace,
end, IGNORECASE. -/
def patInternalUse (s : String) : Bool :=
  match litCI "for".data (dropPyWs s.data) with
  | some r =>
    (match ws1 r with
     | some r2 =>
       (match litCI "internal".data r2 with
        | some r3 =>
          (match ws1 r3 with
           | some r4 =>
             (match litCI "use".data r4 with
              | some r5 =>
                (match ws1 r5 with
                 | some r6 =>
                   (match litCI "only".data r6 with
                    | some r7 => (dropPyWs r7).isEmpty
                    | none => false)
                 | none => false)
              | none => false)
           | none => false)
        | none => false)
     | none => false)
  | none => false

/-- Pattern 20: anchored optional whitespace, "version", whitespace,
digits, any number of dot-digit groups, an optional group of whitespace
and word characters, end, IGNORECASE. -/
def patVersionNum (s : String) : Bool :=
  match litCI "version".data (dropPyWs s.data) with
  | some r =>
    (match ws1 r with
     | some r2 =>
       (match digits1 r2 with
        | some r3 =>
          let r4 := dotDigitsRem r3
          if r4.isEmpty then true
          else
            (match ws1 r4 with
             | some r5 =>
               (match word1 r5 with
                | some [] => true
                | _ => false)
             | none => false)
        | none => false)
     | none => false)
  | none => false

/-- Pattern 21: anchored optional whitespace, "revision", whitespace,
"history", optional whitespace, end, IGNORECASE. -/
def patRevisionHistory (s : String) : Bool :=
  match litCI "revision".data (dropPyWs s.data) with
  | some r =>
    (match ws1 r with
     | some r2 =>
       (match litCI "history".data r2 with
        | some r3 => (dropPyWs r3).isEmpty
        | none => false)
     | none => false)
  | none => false

/-- The disjunction of the 21 non_heading_patterns of
PDFOutlineExtractor.py lines 25-47, in source order. -/
def nonHeadingAny (text : String) : Bool :=
  patFigureEtc text || patBulletSpace text || patNumSlashNum text ||
  patLetterDigits text || patBareNumber text || patCapWordColon text ||
  patWordSlashWordColon text || patNumDotWordColon text || patSNo text ||
  patFormLabel text || patCopyrightYear text || patAllRights text ||
  patConfidentialW text || patDocumentIdPre text || patPageOf text ||
  patDisclaimerW text || patCopyrightWord text || patPreparedBy text ||
  patInternalUse text || patVersionNum text || patRevisionHistory text

/-- The unanchored search pattern of spaced_text_pattern (line 49): a word
character, three or more whitespace characters, a word character, found
anywhere in the text.  The whitespace run is consumed maximally; a shorter
choice would leave a whitespace character where a word character is
required, so maximal munch is exact. -/
def gapThenWord (l : List Char) : Bool :=
  (l.takeWhile isPySpace).length ≥ 3 &&
    (match l.dropWhile isPySpace with
     | c :: _ => isWordCh c
     | [] => false)

/-- Scan every start position for the spaced-text pattern. -/
def hasWordGap : List Char → Bool
  | [] => false
  | c :: rest => (isWordCh c && gapThenWord rest) || hasWordGap rest

/-- _is_spaced_text (lines 196-204): the spaced-text pattern must occur,
and the ratio of spaces (the literal space character, counted by
text.count) to non-space characters must exceed the threshold 0.5. -/
def isSpacedText (text : String) : Bool :=
  if hasWordGap text.data then
    let spaceCount := text.data.count ' '
    let totalChars := text.length
    let nonSpaceChars := totalChars - spaceCount
    if nonSpaceChars > 0 then
      decide ((spaceCount : ℚ) / (nonSpaceChars : ℚ) > (0.5 : ℚ))
    else false
  else false

/-- Full match of the anchored pattern: digits, any number of dot-digit
groups, end (used on the cleaned text at line 221 and on title candidates
at line 555). -/
def patNumDotsFull (s : String) : Bool :=
  match digits1 s.data with
  | some r => (dotDigitsRem r).isEmpty
  | none => false

/-- The anchored pattern of lines 259 and 401: digits with dot-digit
groups, or one uppercase letter, then optional whitespace; since
everything after the first character can match the empty string, it
succeeds exactly when the text starts with a digit or an uppercase
letter. -/
def patNumOrCapStart (s : String) : Bool :=
  match s.data with
  | c :: _ => c.isDigit || c.isUpper
  | [] => false

/-- The anchored pattern of line 265: digits with dot-digit groups then
mandatory whitespace, or an uppercase letter, a dot, then mandatory
whitespace.  Maximal munch of digits and dot-digit groups is exact: any
character a shorter munch would re-expose is a digit or a dot, never the
required whitespace. -/
def patStrongHeading (s : String) : Bool :=
  (match digits1 s.data with
   | some r => (ws1 (dotDigitsRem r)).isSome
   | none => false) ||
  (match s.data with
   | c :: '.' :: r => c.isUpper && (ws1 r).isSome
   | _ => false)

/-- Group 1 of the anchored pattern of line 401: the digits-and-dot-groups
prefix, or the single uppercase letter. -/
def levelGroup (s : String) : Option String :=
  match s.data with
  | [] => none
  | c :: rest =>
    if c.isDigit then
      let ds := (c :: rest).takeWhile Char.isDigit
      let r := (c :: rest).dropWhile Char.isDigit
      let consumed := r.length - (dotDigitsRem r).length
      some ⟨ds ++ r.take consumed⟩
    else if c.isUpper then some ⟨[c]⟩
    else none

/-- Strip the leading and trailing runs of bullet characters and
whitespace (the substitution at line 209). -/
def isBulletStrip (c : Char) : Bool := charIn ['•', '-', '*'] c || isPySpace c

/-- The two cleaning substitutions of lines 209-210: strip bullet runs at
both ends, strip, remove every character that is not ASCII alphanumeric or
whitespace, strip. -/
def cleanedForCmp (text : String) : String :=
  let c1 := stripStr ⟨((text.data.dropWhile isBulletStrip).reverse.dropWhile
    isBulletStrip).reverse⟩
  stripStr ⟨c1.data.filter (fun c => c.isAlphanum || isPySpace c)⟩

/-- A merged text block as assembled by _get_clean_text_blocks: text,
dominant size, dominant boldness, bounding box and its top-left origin. -/
structure Block where
  text : String
  size : ℚ
  is_bold : Bool
  origin_x : ℚ
  origin_y : ℚ
  bbox : ℚ × ℚ × ℚ × ℚ
deriving Repr, DecidableEq

/-- The content-based rejection chain of _is_heading_candidate
(lines 207-244).  In the source this is a sequence of early returns of
False; since every branch rejects, the chain is exactly the short-circuit
disjunction of its conditions, in source order: empty text; empty cleaned
text; a single non-numeric word shorter than 4 characters; zero words; raw
text longer than 100 characters; the non-heading pattern battery; a
trailing colon; a pipe character; at most two words in full upper case
without a numbering prefix; spaced text. -/
def headingTextReject (text : String) : Bool :=
  let cleaned := cleanedForCmp text
  let wordCount := (splitWs cleaned).length
  (text == "") ||
  (cleaned == "") ||
  (decide (wordCount = 1) && !patNumDotsFull cleaned && decide (cleaned.length < 4)) ||
  (decide (wordCount < 1)) ||
  (decide (text.length > 100)) ||
  nonHeadingAny text ||
  pyEndsWithCh text ':' ||
  pyContainsCh text '|' ||
  (decide (wordCount ≤ 2) && isUpperStr text && !patNumDotsWs text) ||
  isSpacedText text

/-- _is_heading_candidate (PDFOutlineExtractor.py lines 206-271): the
content-based rejection chain, the body-size guard, the size/weight gate,
the sentence-shape filter, then the final accepting returns (every return
from line 265 on accepts). -/
def isHeadingCandidate (block : Block) (bodySize : ℚ) : Bool :=
  let text := stripStr block.text
  let wordCount := (splitWs (cleanedForCmp text)).length
  if headingTextReject text then false
  else if bodySize = 0 then false
  else
    let sizeFrac := block.size / bodySize
    let isBoldEnough := block.is_bold = true ∧ block.size > bodySize * (1.05 : ℚ)
    if ¬ (sizeFrac ≥ (1.3 : ℚ) ∨ isBoldEnough) then false
    else
      let looksLikeSentence :=
        (text.data.headD ' ').isUpper = true ∧ wordCount > 3 ∧
          charIn ['.', '?', '!'] (text.data.getLastD ' ') = true
      let strongHeadingShape := isUpperStr text = true ∨ patNumOrCapStart text = true
      if looksLikeSentence ∧ ¬ strongHeadingShape ∧
          (¬ isBoldEnough ∧ sizeFrac < (1.3 : ℚ) * 1.2) then false
      else if patStrongHeading text then true
      else if isUpperStr text = true ∧ wordCount > 1 then true
      else true

/-- The previous-heading context threaded through the heading scan
(PDFOutlineExtractor.py lines 149-155): the numeric depth of the stored
level string, the block's dominant size, origin and bounding box. -/
structure PrevHeading where
  levelNum : Nat
  size : ℚ
  origin_x : ℚ
  origin_y : ℚ
  bbox : ℚ × ℚ × ℚ × ℚ
deriving Repr

/-- One ranked heading style (see _identify_heading_styles). -/
structure HeadingStyle where
  size : ℚ
  is_bold : Bool
  score : ℚ
  char_count : Nat
deriving Repr, DecidableEq

/-- First stage of _determine_heading_level (lines 398-410): base depth
from the leading numbering prefix, defaulting to 3. -/
def levelFromText (currentText : String) : Nat :=
  match levelGroup currentText with
  | some g =>
    let dotCount := g.data.count '.'
    if dotCount = 0 ∧ isDigitStr g = true then 1
    else if dotCount = 1 then 2
    else if dotCount = 2 then 3
    else 3
  | none => 3

/-- Second stage of _determine_heading_level (lines 412-423): refinement
against the ranked heading-style table, guarded on the table being
nonempty. -/
def levelFromStyles (block : Block) (headingStyles : List HeadingStyle)
    (n : Nat) : Nat :=
  match headingStyles with
  | [] => n
  | s0 :: _ =>
    let n2a :=
      match headingStyles.findIdx? (fun style =>
          decide (|block.size - style.size| < (0.5 : ℚ)) &&
            (block.is_bold == style.is_bold)) with
      | some i => if i + 1 < n then i + 1 else n
      | none => n
    if s0.size > 0 then
      let fracToH1 := block.size / s0.size
      if fracToH1 > (0.9 : ℚ) ∧ n2a > 1 then 1
      else if fracToH1 > (0.7 : ℚ) ∧ n2a > 2 then 2
      else n2a
    else n2a

/-- Third stage of _determine_heading_level (lines 425-451): adjustment
against the immediately preceding accepted heading.  The source guards the
vertical-gap rule on the presence of the previous bounding box, which in
this model is always carried. -/
def levelFromPrev (block : Block) (prevHeading : Option PrevHeading)
    (pageDims : ℚ × ℚ) (n : Nat) : Nat :=
  match prevHeading with
  | none => n
  | some prev =>
    let a := if n > prev.levelNum + 1 then prev.levelNum + 1 else n
    let b := if block.origin_x > prev.origin_x + 25 then
               (if a ≤ prev.levelNum then prev.levelNum + 1 else a)
             else a
    let typicalLeftMarginX := pageDims.1 * (0.1 : ℚ)
    let stronglyLeftAligned := |block.origin_x - typicalLeftMarginX| < 30
    let c := if prev.size > 0 ∧ block.size > prev.size * (1.5 : ℚ) ∧
                stronglyLeftAligned ∧ b > 1 then 1 else b
    let verticalGap := block.origin_y - prev.bbox.2.2.2
    let d := if verticalGap > block.size * (2.5 : ℚ) ∧ stronglyLeftAligned ∧
                c > 1 then 1 else c
    if block.size < prev.size * (0.9 : ℚ) ∧ d ≤ prev.levelNum then
      prev.levelNum + 1
    else d

/-- _determine_heading_level (PDFOutlineExtractor.py lines 395-453),
returning the numeric depth n of the produced level string "H" followed by
n: the three sequential adjustment stages, then the final clamp to at most
3. -/
def determineHeadingLevel (block : Block) (headingStyles : List HeadingStyle)
    (prevHeading : Option PrevHeading) (pageDims : ℚ × ℚ) : Nat :=
  min (levelFromPrev block prevHeading pageDims
    (levelFromStyles block headingStyles (levelFromText (stripStr block.text)))) 3

/-! ### Shared iteration helpers: Python max, stable sort, counters -/

/-- Core of pyMaxBy: Python max(iterable, key) walks left to right and
replaces the current maximum only on a strictly larger key, so the first
maximal element wins. -/
def maxByKeyAux {α κ : Type} [LinearOrder κ] (k : α → κ) (m : α) :
    List α → α
  | [] => m
  | x :: xs => maxByKeyAux k (if k m < k x then x else m) xs

/-- Python max(iterable, key=k): none on an empty iterable (where Python
raises), otherwise the first element with the largest key. -/
def maxByKey {α κ : Type} [LinearOrder κ] (k : α → κ) : List α → Option α
  | [] => none
  | x :: xs => some (maxByKeyAux k x xs)

/-- Python max(a, b): the second argument only on a strictly larger
value. -/
def pyMaxQ (a b : ℚ) : ℚ := if a < b then b else a

/-- Stable insertion of one element into an already processed prefix: the
element goes after every earlier element that is allowed to precede it, so
elements comparing equal keep their original order. -/
def insertLe {α : Type} (le : α → α → Bool) (x : α) : List α → List α
  | [] => [x]
  | y :: ys => if le y x then y :: insertLe le x ys else x :: y :: ys

/-- Stable sort by a total boolean preorder: the model of Python's stable
sorted and list.sort.  For a total relation this produces the same list as
any stable sort. -/
def pyStableSort {α : Type} (le : α → α → Bool) (l : List α) : List α :=
  l.foldl (fun acc x => insertLe le x acc) []

/-- collections.Counter accumulation keyed in first-encounter order. -/
def bumpCounter {κ : Type} [DecidableEq κ] (counter : List (κ × Nat))
    (key : κ) (n : Nat) : List (κ × Nat) :=
  match counter with
  | [] => [(key, n)]
  | (k, c) :: rest =>
    if k = key then (k, c + n) :: rest
    else (k, c) :: bumpCounter rest key n

/-- Counter.most_common(1): the first-encountered key with the largest
count. -/
def mostCommon1 {κ : Type} [DecidableEq κ] (counter : List (κ × Nat)) :
    Option κ :=
  match maxByKey (fun e => (e.2 : ℤ)) counter with
  | some e => some e.1
  | none => none

/-! ### Font statistics and body-size selection -/

/-- defaultdict accumulation of the per-size font statistics
(size, char count, bold char count), keyed in first-encounter order. -/
def bumpStats (stats : List (ℚ × Nat × Nat)) (size : ℚ) (chars bold : Nat) :
    List (ℚ × Nat × Nat) :=
  match stats with
  | [] => [(size, chars, bold)]
  | (s, c, b) :: rest =>
    if s = size then (s, c + chars, b + bold) :: rest
    else (s, c, b) :: bumpStats rest size chars bold

/-- _determine_body_text_size (PDFOutlineExtractor.py lines 340-353): 11.0
with no statistics; with sizes sampled in the 8 to 14 point band, the one
of them maximizing char count minus bold count; otherwise the overall size
maximizing the same key.  The none fallbacks mirror the unreachable final
return of 11.0. -/
def determineBodyTextSize (fontStats : List (ℚ × Nat × Nat)) : ℚ :=
  if fontStats.isEmpty then 11
  else
    let bodyCandidates := fontStats.filter
      (fun e => decide (8 ≤ e.1) && decide (e.1 ≤ 14))
    if bodyCandidates.isEmpty then
      match maxByKey (fun e => (e.2.1 : ℤ) - (e.2.2 : ℤ)) fontStats with
      | some m => m.1
      | none => 11
    else
      match maxByKey (fun e => (e.2.1 : ℤ) - (e.2.2 : ℤ)) bodyCandidates with
      | some m => m.1
      | none => 11

/-- _identify_heading_styles (PDFOutlineExtractor.py lines 355-393):
filter sizes above 0.95 of body with a strong ratio or a mostly-bold
share, score them, sort descending by (score, size, char count), keep at
most three pairwise 0.5pt-distinct styles. -/
def pickDistinct : List HeadingStyle → List HeadingStyle → List HeadingStyle
  | [], acc => acc
  | s :: rest, acc =>
    if acc.any (fun d => decide (|s.size - d.size| < (0.5 : ℚ))) then
      pickDistinct rest acc
    else
      if 3 ≤ (acc ++ [s]).length then acc ++ [s]
      else pickDistinct rest (acc ++ [s])

/-- The sort order of _identify_heading_styles line 374-375: ascending in
the negated triple, that is descending lexicographically in
(score, size, char count). -/
def styleLeDesc (a b : HeadingStyle) : Bool :=
  decide (b.score < a.score) ||
  (a.score == b.score &&
    (decide (b.size < a.size) ||
      (a.size == b.size && decide (b.char_count ≤ a.char_count))))

/-- _identify_heading_styles (PDFOutlineExtractor.py lines 355-393). -/
def identifyHeadingStyles (fontStats : List (ℚ × Nat × Nat)) (bodySize : ℚ) :
    List HeadingStyle :=
  let headingCandidates : List HeadingStyle := fontStats.filterMap (fun e =>
    if e.1 ≤ bodySize * (0.95 : ℚ) then none
    else
      let sizeFrac := e.1 / bodySize
      let isBoldLikely := decide ((e.2.2 : ℚ) / ((max 1 e.2.1 : ℕ) : ℚ) > (0.6 : ℚ))
      if decide (sizeFrac ≥ (1.3 : ℚ)) || isBoldLikely then
        some ⟨e.1, isBoldLikely,
          sizeFrac * 50 + (if isBoldLikely then 40 else 0), e.2.1⟩
      else none)
  pickDistinct (pyStableSort styleLeDesc headingCandidates) []

/-! ### Title artifact collapse (TitleFinder._deduplicate_title) -/

theorem lengthDropWhileLe {α : Type} (p : α → Bool) (l : List α) :
    (l.dropWhile p).length ≤ l.length := by
  induction l with
  | nil => simp [List.dropWhile]
  | cons c rest ih =>
    simp only [List.dropWhile]
    cases h : p c
    · simp
    · simp only [List.length_cons]; omega

/-- The substitution of _deduplicate_title (TitleFinder.py line 76): every
maximal run of three or more identical characters is collapsed to a single
occurrence.  The regex dot does not match a newline, so newline runs pass
through unchanged. -/
def collapseRuns : List Char → List Char
  | [] => []
  | c :: rest =>
    (if 3 ≤ (c :: rest.takeWhile (fun d => d = c)).length ∧ c ≠ '\n' then [c]
     else c :: rest.takeWhile (fun d => d = c)) ++
      collapseRuns (rest.dropWhile (fun d => d = c))
termination_by l => l.length
decreasing_by
  rename_i rest
  simp only [List.length_cons]
  have := lengthDropWhileLe (fun d => d = c) rest
  omega

/-- _deduplicate_title (TitleFinder.py lines 72-76). -/
def deduplicateTitle (text : String) : String := ⟨collapseRuns text.data⟩

/-! ### The layout-source data model

The external PDF libraries (fitz for the outline extractor and cover
classifier, pdfplumber for the title finder) are modelled by the data they
deliver: pages carrying dictionary-structured text blocks, widget
rectangles, plain text, image geometry and a table of contents.  An Option
wraps every operation the source code guards with a try/except. -/

/-- One text run (span) of the fitz text dictionary: literal text, font
size, font name, bounding box (x0, y0, x1, y1). -/
structure Span where
  text : String
  size : ℚ
  font : String
  bbox : ℚ × ℚ × ℚ × ℚ
deriving Repr

/-- One line of the fitz text dictionary. -/
structure FitzLine where
  spans : List Span
  bbox : ℚ × ℚ × ℚ × ℚ
deriving Repr

/-- One block of the fitz text dictionary; btype 0 is a text block. -/
structure FitzBlock where
  btype : Nat
  lines : List FitzLine
deriving Repr

/-- A form-field widget rectangle (only its extent is consumed). -/
structure WidgetRect where
  width : ℚ
  height : ℚ
deriving Repr

/-- One entry of page.get_image_info() (only its extent is consumed). -/
structure ImageInfo where
  width : ℚ
  height : ℚ
deriving Repr

/-- One fitz page: its 0-indexed number, rectangle, text blocks, widgets,
plain extracted text and image info. -/
structure FitzPage where
  num : Nat
  rectW : ℚ
  rectH : ℚ
  blocks : List FitzBlock
  widgets : List WidgetRect
  plainText : String
  imageInfos : List ImageInfo
deriving Repr

/-- One entry of doc.get_toc(): level, title, 1-indexed target page. -/
structure TocEntry where
  lvl : Int
  title : String
  page : Int
deriving Repr

/-- A fitz document. -/
structure FitzDoc where
  pages : List FitzPage
  toc : List TocEntry
deriving Repr

/-- One word extracted by pdfplumber with size and fontname attributes. -/
structure PWord where
  text : String
  size : ℚ
  fontname : String
deriving Repr

/-- One pdfplumber page: extract_text and extract_words results, each none
when the call raises (the source catches both). -/
structure PlumberPage where
  extractText : Option String
  words : Option (List PWord)
deriving Repr

/-- A pdfplumber document. -/
structure PlumberDoc where
  pages : List PlumberPage
deriving Repr

/-- One input file as both libraries see it: none models the library
failing to open or parse the file. -/
structure PdfFile where
  fitzView : Option FitzDoc
  plumberView : Option PlumberDoc
  path : String

/-- Return value of extract_outline.  The fallback paths of the source
return a full record dictionary while the main path returns the bare list
of refined entries, so the embedded return type is the sum of the two
shapes. -/
inductive ExtractResult where
  | record (title : String) (outline : List OutlineEntry)
  | entries (l : List OutlineEntry)
deriving DecidableEq, Repr

/-- The record process_pdf serializes: the title and the value received
from extract_outline in the outline field. -/
structure ResultRecord where
  title : String
  outline : ExtractResult
deriving DecidableEq, Repr

/-- os.path.splitext(os.path.basename(path))[0]: the component after the
last slash; its extension after the last dot is removed unless every
character of the component before that dot is itself a dot (the CPython
splitext rule, which leaves dotfiles and all-dot names whole). -/
def basenameNoExt (path : String) : String :=
  let name := (path.data.reverse.takeWhile (fun c => c ≠ '/')).reverse
  let rev := name.reverse
  match rev.dropWhile (fun c => c ≠ '.') with
  | [] => ⟨name⟩
  | _ :: stemRev =>
    if stemRev.all (fun c => c = '.') then ⟨name⟩
    else ⟨stemRev.reverse⟩

/-- Substring containment over character lists (Python in for strings). -/
def hasSubList (sub : List Char) : List Char → Bool
  | [] => sub.isEmpty
  | c :: rest => sub.isPrefixOf (c :: rest) || hasSubList sub rest

/-- Fuel-driven core of countSub; the fuel starts at the text length,
which bounds the number of scan positions. -/
def countSubGo (sub : List Char) : Nat → List Char → Nat
  | 0, _ => 0
  | _, [] => 0
  | fuel + 1, c :: rest =>
    if sub.isPrefixOf (c :: rest) then
      1 + countSubGo sub fuel ((c :: rest).drop sub.length)
    else countSubGo sub fuel rest

/-- Python str.count(sub): non-overlapping left-to-right occurrence count
(a matched occurrence advances the scan past itself). -/
def countSub (s sub : String) : Nat :=
  if sub.data.isEmpty then s.length + 1
  else countSubGo sub.data s.data.length s.data

/-- _is_bold_font (PDFOutlineExtractor.py lines 599-606): empty font name
is not bold; otherwise any of the keywords occurs in the lowercased
name. -/
def isBoldFont (fontName : String) : Bool :=
  if fontName == "" then false
  else
    ["bold", "black", "heavy", "demi", "bld", "700", "800", "900"].any
      (fun kw => hasSubList kw.data (toLowerStr fontName).data)

/-- _is_header_footer (PDFOutlineExtractor.py lines 182-194): the line's
top is within the top or bottom tenth of the page, or the line's
horizontal center is within 20 points of the page center.  Division by a
zero page dimension yields zero in the rational model, where the source
would raise. -/
def isHeaderFooter (lineBbox : ℚ × ℚ × ℚ × ℚ) (pageDims : ℚ × ℚ) : Bool :=
  let yPosFrac := lineBbox.2.1 / pageDims.2
  decide (yPosFrac < (0.1 : ℚ)) || decide (yPosFrac > 1 - (0.1 : ℚ)) ||
    decide (|(lineBbox.1 + lineBbox.2.2.1) / 2 - pageDims.1 / 2| < 20)

/-- Python round(x, 1): one decimal, ties to even (the model of float
rounding applied to exact rationals). -/
def roundTo1 (x : ℚ) : ℚ :=
  let y := x * 10
  let n := ⌊y⌋
  let r : ℤ :=
    if y - n < 1 / 2 then n
    else if y - n > 1 / 2 then n + 1
    else if Even n then n else n + 1
  (r : ℚ) / 10

/-- _is_form_page (PDFOutlineExtractor.py lines 159-180): a dominant
widget area returns early; otherwise at least three weighted
form-indicator signals. -/
def isFormPage (page : FitzPage) (pageDims : ℚ × ℚ) : Bool :=
  let widgetGate :=
    if page.widgets.isEmpty then false
    else
      let formArea := (page.widgets.map (fun w => w.width * w.height)).sum
      decide (formArea / (pageDims.1 * pageDims.2) > (0.15 : ℚ))
  if widgetGate then true
  else
    let text := page.plainText
    let formIndications :=
      countSub text ":_____" + countSub text ": ___" + countSub text ":\n" +
      ((["name:", "date:", "signature:", "address:", "phone:", "email:",
         "id number:", "ssn:", "account:"].map
        (fun lab => countSub (toLowerStr text) lab)).sum) +
      (if hasSubList "|   |".data text.data || hasSubList "|___|".data text.data ||
          hasSubList "___ ___ ___ ".data text.data then 3 else 0)
    decide (formIndications ≥ 3)

/-! ### Style statistics (PDFOutlineExtractor._analyze_document_styles) -/

/-- Accumulate one span into the font statistics (lines 103-113): rounded
size, bold detection, stripped text length. -/
def accumSpan (stats : List (ℚ × Nat × Nat)) (span : Span) :
    List (ℚ × Nat × Nat) :=
  let text := stripStr span.text
  if text == "" then stats
  else
    bumpStats stats (roundTo1 span.size) text.length
      (if isBoldFont span.font then text.length else 0)

/-- Accumulate one line (lines 96-113): skipped when it has no spans or
sits in the header/footer zone. -/
def accumLine (pageDims : ℚ × ℚ) (stats : List (ℚ × Nat × Nat))
    (line : FitzLine) : List (ℚ × Nat × Nat) :=
  if line.spans.isEmpty then stats
  else if isHeaderFooter line.bbox pageDims then stats
  else line.spans.foldl accumSpan stats

/-- Accumulate one block (lines 92-113): only text blocks contribute. -/
def accumBlock (pageDims : ℚ × ℚ) (stats : List (ℚ × Nat × Nat))
    (block : FitzBlock) : List (ℚ × Nat × Nat) :=
  if block.btype ≠ 0 then stats
  else block.lines.foldl (accumLine pageDims) stats

/-- Accumulate one page (lines 81-113): form pages are skipped whole. -/
def accumPage (pageDims : ℚ × ℚ) (stats : List (ℚ × Nat × Nat))
    (page : FitzPage) : List (ℚ × Nat × Nat) :=
  if isFormPage page pageDims then stats
  else page.blocks.foldl (accumBlock pageDims) stats

/-- _analyze_document_styles (PDFOutlineExtractor.py lines 77-113): sample
up to 20 pages starting at the cover-adjusted first page. -/
def analyzeDocumentStyles (doc : FitzDoc) (isFirstPageCover : Bool)
    (pageDims : ℚ × ℚ) : List (ℚ × Nat × Nat) :=
  let startIdx := if isFirstPageCover then 1 else 0
  ((doc.pages.drop startIdx).take (min 20 (doc.pages.length - startIdx))).foldl
    (accumPage pageDims) []

/-! ### Line and block assembly (PDFOutlineExtractor._get_clean_text_blocks) -/

/-- Build one line record (lines 290-318): concatenate the raw texts of
the non-blank spans, count their lengths per rounded size and per
boldness, strip the joined text, and take the dominant size and boldness
(Counter.most_common ties resolve to the first-encountered key, with the
source's defaults for an empty counter). -/
def lineInfoOfLine (line : FitzLine) : Option Block :=
  let kept := line.spans.filter (fun sp => !(stripStr sp.text == ""))
  let lineText := stripStr ⟨(kept.map (fun sp => sp.text.data)).flatten⟩
  if lineText == "" then none
  else
    let sizeCounter := kept.foldl
      (fun acc sp => bumpCounter acc (roundTo1 sp.size) sp.text.length) []
    let boldCounter := kept.foldl
      (fun acc sp => bumpCounter acc (isBoldFont sp.font) sp.text.length) []
    some ⟨lineText, (mostCommon1 sizeCounter).getD 0,
      (mostCommon1 boldCounter).getD false,
      line.bbox.1, line.bbox.2.1, line.bbox⟩

/-- One merge step (lines 320-333): a line visually continuous with the
open block (close below it, same rounded size within 0.5, same boldness,
origin within 20 points) is appended to its text, extending the bottom of
its bounding box; otherwise the open block is emitted and the line opens a
new one. -/
def cleanBlocksStep (pageDims : ℚ × ℚ) (st : List Block × Option Block)
    (line : FitzLine) : List Block × Option Block :=
  if line.spans.isEmpty then st
  else if isHeaderFooter line.bbox pageDims then st
  else
    match lineInfoOfLine line with
    | none => st
    | some li =>
      match st.2 with
      | none => (st.1, some li)
      | some cur =>
        if |li.origin_y - cur.bbox.2.2.2| < 7 ∧ |li.size - cur.size| < (0.5 : ℚ) ∧
            li.is_bold = cur.is_bold ∧ |li.origin_x - cur.origin_x| < 20 then
          (st.1, some { cur with
            text := cur.text ++ " " ++ li.text,
            bbox := (cur.bbox.1, cur.bbox.2.1, cur.bbox.2.2.1, li.bbox.2.2.2),
            origin_y := li.origin_y })
        else (st.1 ++ [cur], some li)

/-- _get_clean_text_blocks (PDFOutlineExtractor.py lines 273-338): the
merge runs over the lines of all text blocks in order, and the still-open
block is emitted at the end. -/
def getCleanTextBlocks (page : FitzPage) (pageDims : ℚ × ℚ) : List Block :=
  let lines := (page.blocks.filter (fun b => b.btype = 0)).flatMap
    (fun b => b.lines)
  match lines.foldl (cleanBlocksStep pageDims) ([], none) with
  | (blocks, some cur) => blocks ++ [cur]
  | (blocks, none) => blocks

/-! ### Heading scan (PDFOutlineExtractor._extract_headings_from_content) -/

/-- One scan step (lines 138-155): an accepted candidate is appended with
its level and page, and becomes the previous-heading context. -/
def headingsStep (bodySize : ℚ) (styles : List HeadingStyle)
    (pageDims : ℚ × ℚ) (pageIdx : Nat)
    (st : List OutlineEntry × Option PrevHeading) (block : Block) :
    List OutlineEntry × Option PrevHeading :=
  if isHeadingCandidate block bodySize then
    let level := determineHeadingLevel block styles st.2 pageDims
    (st.1 ++ [⟨level, block.text, pageIdx⟩],
      some ⟨level, block.size, block.origin_x, block.origin_y, block.bbox⟩)
  else st

/-- _extract_headings_from_content (PDFOutlineExtractor.py lines 115-157):
empty without statistics or without heading styles; otherwise scan the
pages from the cover-adjusted start, skipping form pages, threading the
previous-heading context. -/
def extractHeadingsFromContent (doc : FitzDoc) (isFirstPageCover : Bool)
    (fontStats : List (ℚ × Nat × Nat)) (pageDims : ℚ × ℚ) :
    List OutlineEntry :=
  if fontStats.isEmpty then []
  else
    let bodySize := determineBodyTextSize fontStats
    let headingStyles := identifyHeadingStyles fontStats bodySize
    if headingStyles.isEmpty then []
    else
      let startIdx := if isFirstPageCover then 1 else 0
      ((doc.pages.enum.drop startIdx).foldl
        (fun st p =>
          if isFormPage p.2 pageDims then st
          else (getCleanTextBlocks p.2 pageDims).foldl
            (headingsStep bodySize headingStyles pageDims p.1) st)
        ([], none)).1

/-! ### Document title extraction (PDFOutlineExtractor._extract_document_title) -/

/-- One title candidate line (lines 516-543). -/
structure TitleCand where
  text : String
  size : ℚ
  is_bold : Bool
  y_top : ℚ
  y_bottom : ℚ
  x_left : ℚ
deriving Repr

/-- The anchored full-match of one uppercase letter (line 556). -/
def patSingleCap (s : String) : Bool :=
  match s.data with
  | [c] => c.isUpper
  | _ => false

/-- Collect the title candidates of the chosen page (lines 516-543):
non-header lines in the top 40 percent of the page, with the maximal span
size and any-span boldness. -/
def titleCandsOfPage (page : FitzPage) (pageDims : ℚ × ℚ) : List TitleCand :=
  ((page.blocks.filter (fun b => b.btype = 0)).flatMap (fun b => b.lines)).filterMap
    (fun line =>
      if line.spans.isEmpty then none
      else if isHeaderFooter line.bbox pageDims then none
      else
        let lineText := stripStr ⟨(line.spans.map (fun sp => sp.text.data)).flatten⟩
        if lineText == "" then none
        else
          let dominantSize := match line.spans.map (fun sp => sp.size) with
            | [] => 0
            | v :: vs => vs.foldl pyMaxQ v
          let dominantBold := line.spans.any (fun sp => isBoldFont sp.font)
          if line.bbox.2.1 / pageDims.2 < (0.4 : ℚ) then
            some ⟨lineText, dominantSize, dominantBold, line.bbox.2.1,
              line.bbox.2.2.2, line.bbox.1⟩
          else none)

/-- The sort order of line 548: reverse-sorted by
(size, negated y-top, boldness), that is size descending, then y-top
ascending, then bold before non-bold; the sort is stable. -/
def titleCandLe (a b : TitleCand) : Bool :=
  decide (b.size < a.size) ||
  (a.size == b.size &&
    (decide (a.y_top < b.y_top) ||
      (a.y_top == b.y_top && (!b.is_bold || a.is_bold))))

/-- The continuation-merging loop of lines 577-595: walk the candidates
after the main title, appending those vertically adjacent, of similar size
and alignment, in the upper half of the page, stopping at the first break
condition (a long lowercase-starting run, or a short unnumbered
non-uppercase fragment). -/
def titleMergeGo (pageH : ℚ) : List TitleCand → List String → ℚ → ℚ → ℚ →
    List String
  | [], parts, _, _, _ => parts
  | next :: rest, parts, lastYBottom, lastXLeft, lastSize =>
    if |next.y_top - lastYBottom| < (1.5 : ℚ) * next.size ∧
        |next.size - lastSize| < 2 ∧ |next.x_left - lastXLeft| < 20 ∧
        next.y_top / pageH < (0.5 : ℚ) then
      if ((next.text.data.headD ' ').isLower = true ∧
            (splitWs next.text).length > 7) ∨
          ((splitWs next.text).length < 3 ∧ ¬ isUpperStr next.text = true ∧
            ¬ patNumDotsWs next.text = true) then
        parts
      else
        titleMergeGo pageH rest (parts ++ [next.text]) next.y_bottom
          next.x_left next.size
    else parts

/-- _extract_document_title (PDFOutlineExtractor.py lines 503-597). -/
def extractDocumentTitle (doc : FitzDoc) (isFirstPageCover : Bool)
    (pageDims : ℚ × ℚ) : String :=
  if doc.pages.isEmpty then ""
  else
    let startIdx := if isFirstPageCover then 1 else 0
    match (doc.pages.drop startIdx).head? with
    | none => ""
    | some page =>
      let cands := titleCandsOfPage page pageDims
      if cands.isEmpty then ""
      else
        let sorted := pyStableSort titleCandLe cands
        let headSize := (sorted.headD ⟨"", 0, false, 0, 0, 0⟩).size
        let mainIdx := match sorted.findIdx? (fun cand =>
            decide (cand.size ≥ headSize * (0.85 : ℚ)) &&
            !patNumDotsFull (stripStr cand.text) &&
            !patSingleCap (stripStr cand.text) &&
            decide (1 < (splitWs cand.text).length)) with
          | some i => i
          | none => 0
        let mainCand := sorted.getD mainIdx ⟨"", 0, false, 0, 0, 0⟩
        String.intercalate " "
          (titleMergeGo pageDims.2 (sorted.drop (mainIdx + 1))
            [mainCand.text] mainCand.y_bottom mainCand.x_left mainCand.size)

/-! ### extract_outline (PDFOutlineExtractor.extract_outline) -/

/-- extract_outline (PDFOutlineExtractor.py lines 51-75).  A none open
result models fitz.open raising; the source catches every failure and
returns the fallback record, and returns the same record for a document
with no pages.  On the main path the source computes a document title
(kept here as a discarded binding, since that title does not enter the
returned bare list) and returns the refined candidate list. -/
def extractOutline (documentTitle : String) (isFirstPageCover : Bool)
    (openResult : Option FitzDoc) (pdfPath : String) : ExtractResult :=
  let fallbackTitle :=
    if documentTitle ≠ "" then documentTitle else basenameNoExt pdfPath
  match openResult with
  | none => .record fallbackTitle []
  | some doc =>
    match doc.pages with
    | [] => .record fallbackTitle []
    | page0 :: _ =>
      let pageDims := (page0.rectW, page0.rectH)
      let fontStats := analyzeDocumentStyles doc isFirstPageCover pageDims
      let _documentTitle :=
        if documentTitle = "" then
          let extracted := extractDocumentTitle doc isFirstPageCover pageDims
          if extracted ≠ "" then extracted else basenameNoExt pdfPath
        else documentTitle
      .entries (refineHierarchy
        (extractHeadingsFromContent doc isFirstPageCover fontStats pageDims))

/-! ### Cover-page classification (cover_page.py) -/

/-- Python ' '.join(text.split()): whitespace normalization used on line
and span texts. -/
def normalizeWs (s : String) : String := String.intercalate " " (splitWs s)

/-- The insertion-ordered dictionary update of cover_page.py line 105:
unique_lines[norm] = max(unique_lines.get(norm, 0), fontSize). -/
def updateMaxAssoc (acc : List (String × ℚ)) (key : String) (v : ℚ) :
    List (String × ℚ) :=
  match acc with
  | [] => [(key, pyMaxQ 0 v)]
  | (k, w) :: rest =>
    if k = key then (k, pyMaxQ w v) :: rest
    else (k, w) :: updateMaxAssoc rest key v

/-- The prominent-element count of cover_page.py lines 117-129: walk the
spans in descending size order, counting distinct normalized texts whose
size exceeds 1.2 times the average. -/
def promGo (avg : ℚ) : List Span → List String → Nat
  | [], _ => 0
  | sp :: rest, processed =>
    let norm := normalizeWs (stripStr sp.text)
    if norm == "" then promGo avg rest processed
    else if decide (sp.size > avg * (1.2 : ℚ)) && !(processed.contains norm) then
      1 + promGo avg rest (processed ++ [norm])
    else promGo avg rest processed

/-- _analyze_page_for_cover_characteristics (cover_page.py lines 3-180)
with its default parameters: the table-of-contents short-circuit, then the
image, font-size, body-density, prominent-element, centering and vertical
heuristics.  Divisions by a zero page dimension yield zero in the rational
model, where the source would raise into its catch-all (no claim touches
that corner). -/
def analyzePageForCover (page : FitzPage) (doc : FitzDoc) : Bool :=
  let firstTocPage : Int := match doc.toc.head? with
    | some e => e.page
    | none => -1
  let tocShortCircuit :=
    if doc.toc.isEmpty then false
    else if firstTocPage = (page.num : Int) + 1 ∧ page.num = 0 then false
    else if firstTocPage > 1 ∧ page.num = 0 then true
    else false
  if tocShortCircuit then true
  else
    let textBlocks := page.blocks.filter (fun b => b.btype = 0)
    let spans := (textBlocks.flatMap (fun b => b.lines)).flatMap (fun l => l.spans)
    let pageArea := page.rectW * page.rectH
    let totalImageArea := ((page.imageInfos.filter
        (fun i => decide (i.width > 0) && decide (i.height > 0))).map
      (fun i => i.width * i.height)).sum
    let hasSignificantImage :=
      decide ((if pageArea > 0 then totalImageArea / pageArea else 0) > (0.02 : ℚ))
    if spans.isEmpty then hasSignificantImage
    else
      match spans.map (fun s => s.size) with
      | [] => false
      | sz :: szs =>
        let avgFontSize := (sz :: szs).sum / (((sz :: szs).length : ℕ) : ℚ)
        let maxFontSize := szs.foldl pyMaxQ sz
        let hasALargeFont := decide (maxFontSize > avgFontSize * (1.2 : ℚ))
        let uniqueLines := (textBlocks.flatMap (fun b => b.lines)).foldl
          (fun acc l =>
            let lineText := stripStr
              (String.intercalate " " (l.spans.map (fun s => s.text)))
            if lineText == "" then acc
            else
              let maxLineFont := match l.spans.map (fun s => s.size) with
                | [] => 0
                | v :: vs => vs.foldl pyMaxQ v
              updateMaxAssoc acc (normalizeWs lineText) maxLineFont) []
        let bodyTextLinesCount := (uniqueLines.filter (fun e =>
          decide (e.2 ≤ avgFontSize * (1.2 : ℚ)) &&
          decide (4 < (splitWs e.1).length) &&
          decide (e.2 < maxFontSize * (0.8 : ℚ)))).length
        if 8 < bodyTextLinesCount then false
        else
          let sortedSpans := pyStableSort (fun a b : Span => decide (b.size ≤ a.size)) spans
          let prominentCount := promGo avgFontSize sortedSpans []
          if ¬ (1 ≤ prominentCount ∧ prominentCount ≤ 15) then false
          else
            match maxByKey (fun s : Span => s.size) spans with
            | none => false
            | some sp =>
              let isCentered := decide
                (|(sp.bbox.1 + sp.bbox.2.2.1) / 2 - page.rectW / 2| / page.rectW
                  < (0.30 : ℚ))
              let isHighEnough := decide (sp.bbox.2.1 / page.rectH < (0.5 : ℚ))
              let isVerySparse :=
                decide (spans.length < 10) && decide (bodyTextLinesCount = 0)
              let isLikelyCover :=
                decide (bodyTextLinesCount ≤ 8) && hasALargeFont &&
                isCentered && isHighEnough &&
                decide (1 ≤ prominentCount) && decide (prominentCount ≤ 15)
              isLikelyCover || (isVerySparse && hasSignificantImage)

/-- is_cover_page (cover_page.py lines 182-215) at page_number 0, as the
pipeline calls it: False when the document cannot be opened or has no
page, otherwise the analysis of the first page. -/
def isCoverPage (openResult : Option FitzDoc) : Bool :=
  match openResult with
  | none => false
  | some doc =>
    if doc.pages.length ≤ 0 then false
    else
      match doc.pages.head? with
      | some page => analyzePageForCover page doc
      | none => false

/-! ### Title finding (TitleFinder.py) -/

/-- _find_first_content_page (TitleFinder.py lines 53-60): the first page
whose extracted text is truthy and non-blank; a page whose extraction
raises (none) is skipped. -/
def findFirstContentPage : List PlumberPage → Option PlumberPage
  | [] => none
  | p :: rest =>
    match p.extractText with
    | none => findFirstContentPage rest
    | some t =>
      if t ≠ "" ∧ stripStr t ≠ "" then some p
      else findFirstContentPage rest

/-- One step of the dominant-title-run fold of find_title (lines 24-40):
short or numeric words are skipped; a strictly larger size resets the run;
a word matching the current size and font name extends it. -/
def titleWordsStep (st : List String × ℚ × String) (w : PWord) :
    List String × ℚ × String :=
  if (stripStr w.text).length ≤ 2 ∨ isDigitStr w.text = true then st
  else if w.size > st.2.1 then ([w.text], w.size, w.fontname)
  else if w.size = st.2.1 ∧ w.fontname = st.2.2 then
    (st.1 ++ [w.text], st.2.1, st.2.2)
  else st

/-- TitleFinder.find_title (TitleFinder.py lines 12-51): the dominant-run
title of the first content page, artifact-collapsed, or the file's base
name when nothing usable is found.  A words extraction that raises yields
the empty word list (the source's _safe_extract_words). -/
def findTitle (pdf : PlumberDoc) (pdfPath : String) : String :=
  let title :=
    match findFirstContentPage pdf.pages with
    | none => ""
    | some page =>
      let st := (page.words.getD []).foldl titleWordsStep ([], 0, "")
      deduplicateTitle (stripStr (String.intercalate " " st.1))
  if title ≠ "" then title else basenameNoExt pdfPath

/-! ### The per-document pipeline (main.process_pdf) -/

/-- process_pdf (main.py lines 9-54), producing the result record the
collaborating serializer writes out.  pdfplumber failing to open is the
caught exception branch in which the title degrades to the file's base
name; fitz failing to open makes the cover classifier answer False and
the outline extractor return its fallback record.  Every per-document
accumulator (font statistics, page dimensions, heading context) is
created inside this function, as the source creates fresh TitleFinder and
PDFOutlineExtractor instances per document. -/
def processPdf (f : PdfFile) : ResultRecord :=
  let title :=
    match f.plumberView with
    | none => basenameNoExt f.path
    | some pd => findTitle pd f.path
  let isFirstPageCover := isCoverPage f.fitzView
  ⟨title, extractOutline title isFirstPageCover f.fitzView f.path⟩

/-! ### Helper lemmas -/

theorem clampEntry_le (prev e : OutlineEntry) :
    (clampEntry prev e).level ≤ prev.level + 1 := by
  unfold clampEntry
  split_ifs with h
  · simp
  · omega

theorem cleanPass_chain (rest : List OutlineEntry) : ∀ prev : OutlineEntry,
    List.Chain' (fun a b => (b.level : ℤ) - (a.level : ℤ) ≤ 1)
      (prev :: cleanPass prev rest) := by
  induction rest with
  | nil => intro prev; simp [cleanPass]
  | cons e es ih =>
    intro prev
    rw [cleanPass]
    split_ifs with hd
    · exact ih prev
    · refine List.chain'_cons.mpr ⟨?_, ih (clampEntry prev e)⟩
      have := clampEntry_le prev e
      omega

theorem levelFromStyles_one (block : Block) (styles : List HeadingStyle) :
    levelFromStyles block styles 1 = 1 := by
  unfold levelFromStyles
  cases styles with
  | nil => rfl
  | cons s0 rest =>
    have hno : ∀ i : Nat, ¬ (i + 1 < 1) := by omega
    cases hf : (s0 :: rest).findIdx? (fun style =>
        decide (|block.size - style.size| < (0.5 : ℚ)) &&
          (block.is_bold == style.is_bold)) with
    | none => simp [hf]
    | some i => simp [hf, hno]

theorem levelFromPrev_none (block : Block) (pageDims : ℚ × ℚ) (n : Nat) :
    levelFromPrev block none pageDims n = n := rfl

/-! ### The claims -/

/-- C1.  For every input list of outline entries (with depths read from
the H1/H2/H3 levels), in the list returned by _refine_hierarchy every pair
of consecutive entries satisfies: the numeric depth of the later entry
minus the depth of the earlier entry is at most 1. -/
theorem c1_refine_hierarchy_monotonic (l : List OutlineEntry)
    (_hl : ∀ e ∈ l, 1 ≤ e.level ∧ e.level ≤ 3) :
    List.Chain' (fun a b => (b.level : ℤ) - (a.level : ℤ) ≤ 1)
      (refineHierarchy l) := by
  unfold refineHierarchy
  cases h : dedupPass none l with
  | nil => simp
  | cons h0 t => exact cleanPass_chain t h0

/-- Witness for C1 at a concrete entry list. -/
theorem c1_refine_hierarchy_monotonic_witness :
    (∀ e ∈ [(⟨1, "Overview", 0⟩ : OutlineEntry), ⟨3, "Detail", 1⟩,
        ⟨2, "Next", 2⟩], 1 ≤ e.level ∧ e.level ≤ 3) ∧
    List.Chain' (fun a b => (b.level : ℤ) - (a.level : ℤ) ≤ 1)
      (refineHierarchy [⟨1, "Overview", 0⟩, ⟨3, "Detail", 1⟩, ⟨2, "Next", 2⟩]) :=
  ⟨by decide, c1_refine_hierarchy_monotonic _ (by decide)⟩

/-- C2, counterexample.  On the input sequence of the claim,
_refine_hierarchy does not return the two-entry list the claim states: the
final duplicate of the first entry is not consecutive with any equal kept
entry, so it survives both passes. -/
theorem c2_refine_example_counterexample :
    refineHierarchy [⟨1, "A", 0⟩, ⟨3, "B", 0⟩, ⟨1, "A", 0⟩] ≠
      [⟨1, "A", 0⟩, ⟨2, "B", 0⟩] := by decide

/-- C2, amended.  _refine_hierarchy applied to
[(H1,"A",0), (H3,"B",0), (H1,"A",0)] returns
[(H1,"A",0), (H2,"B",0), (H1,"A",0)]: the H3 entry is clamped to H2, and
the trailing (H1,"A",0) is kept because only consecutive exact duplicates
are dropped. -/
theorem c2_refine_example_amended :
    refineHierarchy [⟨1, "A", 0⟩, ⟨3, "B", 0⟩, ⟨1, "A", 0⟩] =
      [⟨1, "A", 0⟩, ⟨2, "B", 0⟩, ⟨1, "A", 0⟩] := by decide

/-- C5.  For body size b greater than 0 and every heading-style table, a
block with text "1. Introduction" at 1.4 times body size, not bold, is
accepted by _is_heading_candidate and, with no preceding accepted heading,
assigned level H1 (depth 1) by _determine_heading_level; a block with the
text "total" alone at body size is rejected by _is_heading_candidate
regardless of its position and boldness. -/
theorem c5_heading_classifier (b : ℚ) (hb : 0 < b)
    (styles : List HeadingStyle) (pageDims : ℚ × ℚ) (gx gy : ℚ)
    (bb : ℚ × ℚ × ℚ × ℚ) :
    isHeadingCandidate ⟨"1. Introduction", 1.4 * b, false, gx, gy, bb⟩ b = true ∧
    determineHeadingLevel ⟨"1. Introduction", 1.4 * b, false, gx, gy, bb⟩
      styles none pageDims = 1 ∧
    ∀ bold : Bool, isHeadingCandidate ⟨"total", b, bold, gx, gy, bb⟩ b = false := by
  have hb0 : b ≠ 0 := ne_of_gt hb
  refine ⟨?_, ?_, ?_⟩
  · unfold isHeadingCandidate
    dsimp only
    rw [show headingTextReject (stripStr "1. Introduction") = false from by decide]
    have hfrac : (1.4 : ℚ) * b / b = 1.4 := by
      rw [mul_div_assoc, div_self hb0, mul_one]
    simp only [Bool.false_eq_true, if_false, hfrac]
    rw [if_neg hb0]
    rw [if_neg (show ¬ ¬ ((1.4 : ℚ) ≥ 1.3 ∨ (False ∧ (1.4 : ℚ) * b > b * 1.05))
      from fun h => h (Or.inl (by norm_num)))]
    rw [if_neg (fun hcon => (by decide :
      ¬ (((stripStr "1. Introduction").data.headD ' ').isUpper = true ∧
        (splitWs (cleanedForCmp (stripStr "1. Introduction"))).length > 3 ∧
        charIn ['.', '?', '!']
          ((stripStr "1. Introduction").data.getLastD ' ') = true)) hcon.1)]
    rw [if_neg (show ¬ patStrongHeading (stripStr "1. Introduction") = true
      from by decide)]
    rw [if_neg (fun hcon => (by decide :
      ¬ isUpperStr (stripStr "1. Introduction") = true) hcon.1)]
  · unfold determineHeadingLevel
    dsimp only
    rw [show levelFromText (stripStr "1. Introduction") = 1 from by decide]
    rw [levelFromStyles_one, levelFromPrev_none]
    decide
  · intro bold
    unfold isHeadingCandidate
    dsimp only
    rw [show headingTextReject (stripStr "total") = true from by decide]
    rfl

/-- Witness for C5 at body size 10 and the empty style table. -/
theorem c5_heading_classifier_witness :
    (0 : ℚ) < 10 ∧
    (isHeadingCandidate ⟨"1. Introduction", 1.4 * 10, false, 0, 0,
        (0, 0, 0, 0)⟩ 10 = true ∧
      determineHeadingLevel ⟨"1. Introduction", 1.4 * 10, false, 0, 0,
        (0, 0, 0, 0)⟩ [] none (612, 792) = 1 ∧
      ∀ bold : Bool,
        isHeadingCandidate ⟨"total", 10, bold, 0, 0, (0, 0, 0, 0)⟩ 10 = false) :=
  ⟨by norm_num,
    c5_heading_classifier 10 (by norm_num) [] (612, 792) 0 0 (0, 0, 0, 0)⟩

/-- C6, amended.  Every block whose stripped text contains the spaced-text
trigger (a word character, three or more whitespace characters, a word
character) and whose space ratio exceeds 0.5 — that is, every block that
_is_spaced_text flags — is rejected by _is_heading_candidate regardless of
its size, boldness and the body size; the claim's universal form fails
without the trigger because _is_spaced_text tests the ratio only after the
pattern search succeeds. -/
theorem c6_spaced_text_rejection (block : Block) (bodySize : ℚ)
    (h : isSpacedText (stripStr block.text) = true) :
    isHeadingCandidate block bodySize = false := by
  have hrej : headingTextReject (stripStr block.text) = true := by
    unfold headingTextReject
    simp [h]
  unfold isHeadingCandidate
  simp [hrej]

/-- Witness for C6: the claim's own spaced string at twice the body
size. -/
theorem c6_spaced_text_rejection_witness :
    isSpacedText (stripStr "T H I S   I S   A   T I T L E") = true ∧
    isHeadingCandidate ⟨"T H I S   I S   A   T I T L E", 20, false, 0, 0,
      (0, 0, 0, 0)⟩ 10 = false := by
  have ha : isSpacedText (stripStr "T H I S   I S   A   T I T L E") = true := by
    unfold isSpacedText
    simp only [show hasWordGap (stripStr "T H I S   I S   A   T I T L E").data =
        true from by decide,
      show (stripStr "T H I S   I S   A   T I T L E").data.count ' ' = 17 from
        by decide,
      show (stripStr "T H I S   I S   A   T I T L E").length = 29 from by decide,
      if_true]
    norm_num
  exact ⟨ha, c6_spaced_text_rejection _ _ ha⟩

/-- C6, counterexample.  The text "a b c d e f" has space ratio 5 over 6,
above 0.5, yet _is_heading_candidate accepts it at twice the body size:
no word character is followed by three or more whitespace characters, so
the spaced-text pattern search fails and the ratio is never tested. -/
theorem c6_spaced_text_rejection_counterexample :
    ((("a b c d e f").data.count ' ' : ℚ) /
        ((("a b c d e f").length - ("a b c d e f").data.count ' ' : Nat) : ℚ) >
      (0.5 : ℚ)) ∧
    isHeadingCandidate ⟨"a b c d e f", 20, false, 0, 0, (0, 0, 0, 0)⟩ 10 = true := by
  constructor
  · norm_num [show ("a b c d e f").data.count ' ' = 5 from by decide,
      show ("a b c d e f").length = 11 from by decide]
  · unfold isHeadingCandidate
    dsimp only
    rw [show headingTextReject (stripStr "a b c d e f") = false from by decide]
    simp only [Bool.false_eq_true, if_false]
    rw [if_neg (show ¬ (10 : ℚ) = 0 from by norm_num)]
    rw [if_neg (show ¬ ¬ ((20 : ℚ) / 10 ≥ 1.3 ∨
        (False ∧ (20 : ℚ) > 10 * 1.05))
      from fun h => h (Or.inl (by norm_num)))]
    rw [if_neg (fun hcon => (by decide :
      ¬ (((stripStr "a b c d e f").data.headD ' ').isUpper = true ∧
        (splitWs (cleanedForCmp (stripStr "a b c d e f"))).length > 3 ∧
        charIn ['.', '?', '!']
          ((stripStr "a b c d e f").data.getLastD ' ') = true)) hcon.1)]
    rw [if_neg (show ¬ patStrongHeading (stripStr "a b c d e f") = true
      from by decide)]
    rw [if_neg (fun hcon => (by decide :
      ¬ isUpperStr (stripStr "a b c d e f") = true) hcon.1)]

theorem maxByKeyAux_spec {α κ : Type} [LinearOrder κ] (k : α → κ)
    (l : List α) : ∀ m : α,
    (maxByKeyAux k m l = m ∨ maxByKeyAux k m l ∈ l) ∧
    k m ≤ k (maxByKeyAux k m l) ∧
    ∀ x ∈ l, k x ≤ k (maxByKeyAux k m l) := by
  induction l with
  | nil => intro m; exact ⟨Or.inl rfl, le_refl _, by simp⟩
  | cons x xs ih =>
    intro m
    rw [maxByKeyAux]
    by_cases hc : k m < k x
    · rw [if_pos hc]
      obtain ⟨hmem, hle, hall⟩ := ih x
      refine ⟨?_, ?_, ?_⟩
      · rcases hmem with h | h
        · exact Or.inr (by rw [h]; exact List.mem_cons_self x xs)
        · exact Or.inr (List.mem_cons_of_mem x h)
      · exact le_trans (le_of_lt hc) hle
      · intro y hy
        rcases List.mem_cons.mp hy with h | h
        · subst h; exact hle
        · exact hall y h
    · rw [if_neg hc]
      obtain ⟨hmem, hle, hall⟩ := ih m
      refine ⟨?_, ?_, ?_⟩
      · rcases hmem with h | h
        · exact Or.inl h
        · exact Or.inr (List.mem_cons_of_mem x h)
      · exact hle
      · intro y hy
        rcases List.mem_cons.mp hy with h | h
        · subst h; exact le_trans (le_of_not_lt hc) hle
        · exact hall y h

theorem maxByKey_spec {α κ : Type} [LinearOrder κ] (k : α → κ)
    (l : List α) (hl : l ≠ []) :
    ∃ m, maxByKey k l = some m ∧ m ∈ l ∧ ∀ x ∈ l, k x ≤ k m := by
  cases l with
  | nil => exact absurd rfl hl
  | cons x xs =>
    obtain ⟨hmem, _, hall⟩ := maxByKeyAux_spec k xs x
    refine ⟨maxByKeyAux k x xs, rfl, ?_, ?_⟩
    · rcases hmem with h | h
      · rw [h]; exact List.mem_cons_self x xs
      · exact List.mem_cons_of_mem x h
    · intro y hy
      rcases List.mem_cons.mp hy with h | h
      · rw [h]; exact (maxByKeyAux_spec k xs x).2.1
      · exact hall y h

/-- C7, amended.  _determine_body_text_size returns 11.0 with no
statistics; with sizes sampled in the 8 to 14 point band it returns one of
them carrying a maximal (char count minus bold count); with no size in the
band it falls back to a size maximal for the same char-minus-bold key over
the whole table — not, as the claim states, for the total character
count. -/
theorem c7_body_text_size (stats : List (ℚ × Nat × Nat)) :
    (stats = [] → determineBodyTextSize stats = 11) ∧
    (stats.filter (fun e => decide (8 ≤ e.1) && decide (e.1 ≤ 14)) ≠ [] →
      ∃ m ∈ stats.filter (fun e => decide (8 ≤ e.1) && decide (e.1 ≤ 14)),
        determineBodyTextSize stats = m.1 ∧
        ∀ x ∈ stats.filter (fun e => decide (8 ≤ e.1) && decide (e.1 ≤ 14)),
          (x.2.1 : ℤ) - (x.2.2 : ℤ) ≤ (m.2.1 : ℤ) - (m.2.2 : ℤ)) ∧
    (stats ≠ [] →
      stats.filter (fun e => decide (8 ≤ e.1) && decide (e.1 ≤ 14)) = [] →
      ∃ m ∈ stats, determineBodyTextSize stats = m.1 ∧
        ∀ x ∈ stats, (x.2.1 : ℤ) - (x.2.2 : ℤ) ≤ (m.2.1 : ℤ) - (m.2.2 : ℤ)) := by
  refine ⟨?_, ?_, ?_⟩
  · intro h; subst h; rfl
  · intro hf
    have hne : stats ≠ [] := by
      intro h; subst h; simp at hf
    unfold determineBodyTextSize
    rw [if_neg (by simpa [List.isEmpty_iff] using hne)]
    dsimp only
    rw [if_neg (by simpa [List.isEmpty_iff] using hf)]
    obtain ⟨m, hm, hmem, hmax⟩ := maxByKey_spec
      (fun e : ℚ × Nat × Nat => (e.2.1 : ℤ) - (e.2.2 : ℤ)) _ hf
    rw [hm]
    exact ⟨m, hmem, rfl, hmax⟩
  · intro hne hf
    unfold determineBodyTextSize
    rw [if_neg (by simpa [List.isEmpty_iff] using hne)]
    dsimp only
    rw [if_pos (by simpa [List.isEmpty_iff] using hf)]
    obtain ⟨m, hm, hmem, hmax⟩ := maxByKey_spec
      (fun e : ℚ × Nat × Nat => (e.2.1 : ℤ) - (e.2.2 : ℤ)) stats hne
    rw [hm]
    exact ⟨m, hmem, rfl, hmax⟩

/-- Witness for C7: the empty table gives 11, and on a table with only the
size 10 inside the band the in-band maximizer is returned. -/
theorem c7_body_text_size_witness :
    determineBodyTextSize [] = 11 ∧
    ∃ m ∈ ([((10 : ℚ), 500, 0), (20, 900, 900)] :
        List (ℚ × Nat × Nat)).filter
        (fun e => decide (8 ≤ e.1) && decide (e.1 ≤ 14)),
      determineBodyTextSize [((10 : ℚ), 500, 0), (20, 900, 900)] = m.1 ∧
      ∀ x ∈ ([((10 : ℚ), 500, 0), (20, 900, 900)] :
          List (ℚ × Nat × Nat)).filter
          (fun e => decide (8 ≤ e.1) && decide (e.1 ≤ 14)),
        (x.2.1 : ℤ) - (x.2.2 : ℤ) ≤ (m.2.1 : ℤ) - (m.2.2 : ℤ) :=
  ⟨(c7_body_text_size []).1 rfl, (c7_body_text_size _).2.1 (by decide)⟩

/-- C7, counterexample.  On the table with sizes 20 (900 characters, 900
bold) and 30 (50 characters, none bold) no size lies in the 8 to 14 band;
the single largest-volume size is 20, but _determine_body_text_size
returns 30, because the fallback maximizes char count minus bold count
rather than the total character count the claim states. -/
theorem c7_body_text_size_counterexample :
    determineBodyTextSize [(20, 900, 900), (30, 50, 0)] = 30 ∧
    maxByKey (fun e : ℚ × Nat × Nat => (e.2.1 : ℤ))
      [(20, 900, 900), (30, 50, 0)] = some (20, 900, 900) ∧
    (30 : ℚ) ≠ 20 := by
  refine ⟨by decide, by decide, by norm_num⟩

/-- C3.  For the zero-page document the pipeline's result record is not
the claimed record with an empty outline sequence: extract_outline's
zero-page fallback returns a full record, which process_pdf embeds as the
outline field, yielding a nested record where the claim requires the empty
entry sequence. -/
theorem c3_zero_page_result :
    processPdf ⟨some ⟨[], []⟩, some ⟨[]⟩, "input/empty.pdf"⟩ =
      ⟨"empty", .record "empty" []⟩ ∧
    ∀ entries : List OutlineEntry,
      (ExtractResult.record "empty" [] : ExtractResult) ≠ .entries entries :=
  ⟨rfl, fun _ h => ExtractResult.noConfusion h⟩

/-- C4.  With no supplied title, extract_outline returns the record with
an empty outline and the file's base name as title, both when the layout
source cannot open the file (none) and for a zero-page document; being a
total function of the open result, it propagates no failure. -/
theorem c4_extract_outline_fallback (pdfPath : String) (cover : Bool) :
    extractOutline "" cover none pdfPath =
      .record (basenameNoExt pdfPath) [] ∧
    ∀ doc : FitzDoc, doc.pages = [] →
      extractOutline "" cover (some doc) pdfPath =
        .record (basenameNoExt pdfPath) [] := by
  constructor
  · unfold extractOutline
    simp
  · intro doc hd
    obtain ⟨pages, toc⟩ := doc
    simp only at hd
    subst hd
    unfold extractOutline
    simp

/-- Witness for C4 at a concrete path and a concrete zero-page
document. -/
theorem c4_extract_outline_fallback_witness :
    extractOutline "" false none "docs/report.pdf" =
      .record (basenameNoExt "docs/report.pdf") [] ∧
    extractOutline "" false (some ⟨[], []⟩) "docs/report.pdf" =
      .record (basenameNoExt "docs/report.pdf") [] :=
  ⟨(c4_extract_outline_fallback "docs/report.pdf" false).1,
    (c4_extract_outline_fallback "docs/report.pdf" false).2 ⟨[], []⟩ rfl⟩

/-- C9.  The pipeline is a deterministic function of the input as both
libraries deliver it: two runs of process_pdf on the same input produce
the same result record.  Every per-document accumulator is created fresh
inside processPdf, so no state survives from one run to the next. -/
theorem c9_pipeline_deterministic (f : PdfFile) (r1 r2 : ResultRecord)
    (h1 : processPdf f = r1) (h2 : processPdf f = r2) : r1 = r2 := by
  rw [← h1, ← h2]

/-- Witness for C9 at a concrete input. -/
theorem c9_pipeline_deterministic_witness :
    processPdf ⟨some ⟨[], []⟩, some ⟨[]⟩, "batch/run.pdf"⟩ =
      processPdf ⟨some ⟨[], []⟩, some ⟨[]⟩, "batch/run.pdf"⟩ :=
  c9_pipeline_deterministic _ _ _ rfl rfl

/-- The cover-scenario span of C8: one centered 36 point text line. -/
def coverTestSpan : Span := ⟨"Document Title", 36, "Helvetica", (206, 100, 406, 140)⟩

/-- The cover-scenario first page of C8: page index 0 on a 612 by 792
page, carrying exactly the one centered line, no widgets and no images. -/
def coverTestPage : FitzPage :=
  ⟨0, 612, 792, [⟨0, [⟨[coverTestSpan], (206, 100, 406, 140)⟩]⟩], [], "", []⟩

/-- The C8 document whose table of contents points at page 1. -/
def coverTocContentDoc : FitzDoc := ⟨[coverTestPage], [⟨1, "Contents", 1⟩]⟩

/-- C8.  The cover classifier returns True for every first page (index 0)
of a document whose table of contents exists with its first entry pointing
at page 2 — the short-circuit is independent of the page's geometry — and
returns False (content page) for the page with exactly one centered 36
point line and no body paragraphs when the first table-of-contents entry
points at page 1. -/
theorem c8_cover_classifier :
    (∀ (page : FitzPage) (doc : FitzDoc), doc.toc ≠ [] →
      (doc.toc.headD ⟨0, "", 0⟩).page = 2 → page.num = 0 →
      analyzePageForCover page doc = true) ∧
    analyzePageForCover coverTestPage coverTocContentDoc = false := by
  constructor
  · intro page doc htoc hfirst hnum
    cases hdoc : doc.toc with
    | nil => exact absurd hdoc htoc
    | cons e t =>
      rw [hdoc] at hfirst
      simp only [List.headD_cons] at hfirst
      simp [analyzePageForCover, hdoc, hfirst, hnum]
  · unfold analyzePageForCover coverTocContentDoc coverTestPage coverTestSpan
    norm_num
    intro _h1 _h2 _h3
    split <;> rfl

/-- Witness for C8: the same geometry under a table of contents whose
first entry points at page 2 is classified a cover. -/
theorem c8_cover_classifier_witness :
    analyzePageForCover coverTestPage ⟨[coverTestPage], [⟨1, "Contents", 2⟩]⟩ =
      true :=
  c8_cover_classifier.1 coverTestPage ⟨[coverTestPage], [⟨1, "Contents", 2⟩]⟩
    (List.cons_ne_nil _ _) rfl rfl

/-! ### Idempotence of the title artifact collapse -/

theorem takeWhile_const_append (p : Char → Bool) (l1 l2 : List Char)
    (h1 : ∀ x ∈ l1, p x = true)
    (h2 : ∀ c, l2.head? = some c → p c = false) :
    (l1 ++ l2).takeWhile p = l1 ∧ (l1 ++ l2).dropWhile p = l2 := by
  induction l1 with
  | nil =>
    simp only [List.nil_append]
    cases l2 with
    | nil => simp [List.takeWhile, List.dropWhile]
    | cons c cs =>
      have := h2 c rfl
      simp [List.takeWhile, List.dropWhile, this]
  | cons a l1 ih =>
    have ha : p a = true := h1 a (List.mem_cons_self a l1)
    have := ih (fun x hx => h1 x (List.mem_cons_of_mem a hx))
    simp [List.takeWhile, List.dropWhile, ha, this.1, this.2]

theorem collapseRuns_head? (l : List Char) (c : Char)
    (h : l.head? = some c) : (collapseRuns l).head? = some c := by
  cases l with
  | nil => simp at h
  | cons a rest =>
    simp only [List.head?_cons, Option.some.injEq] at h
    subst h
    rw [collapseRuns]
    split_ifs with hc
    · rfl
    · rfl

theorem collapseRuns_const_append (c : Char) (p xs : List Char)
    (hp : p.head? = some c) (hall : ∀ x ∈ p, x = c)
    (hxs : ∀ d, xs.head? = some d → d ≠ c) :
    collapseRuns (p ++ xs) =
      (if 3 ≤ p.length ∧ c ≠ '\n' then [c] else p) ++ collapseRuns xs := by
  cases p with
  | nil => simp at hp
  | cons c0 p' =>
    simp only [List.head?_cons, Option.some.injEq] at hp
    subst hp
    have hall' : ∀ x ∈ p', (fun d => decide (d = c0)) x = true := by
      intro x hx
      simp [hall x (List.mem_cons_of_mem c0 hx)]
    have hxs' : ∀ d, xs.head? = some d → (fun d => decide (d = c0)) d = false := by
      intro d hd
      simp [hxs d hd]
    obtain ⟨htake, hdrop⟩ := takeWhile_const_append _ p' xs hall' hxs'
    rw [List.cons_append, collapseRuns]
    rw [htake, hdrop]

theorem mem_takeWhile_pred (p : Char → Bool) (l : List Char) (x : Char)
    (h : x ∈ l.takeWhile p) : p x = true := by
  induction l with
  | nil => simp [List.takeWhile] at h
  | cons a as ih =>
    rw [List.takeWhile] at h
    cases ha : p a with
    | false => rw [ha] at h; simp at h
    | true =>
      rw [ha] at h
      rcases List.mem_cons.mp h with h1 | h1
      · subst h1; exact ha
      · exact ih h1

theorem head?_dropWhile_false (p : Char → Bool) (l : List Char) :
    ∀ d, (l.dropWhile p).head? = some d → p d = false := by
  induction l with
  | nil => intro d h; simp [List.dropWhile] at h
  | cons a as ih =>
    intro d h
    rw [List.dropWhile] at h
    cases ha : p a with
    | true => rw [ha] at h; exact ih d h
    | false =>
      rw [ha] at h
      simp only [List.head?_cons, Option.some.injEq] at h
      subst h; exact ha

/-- Every maximal character run of the collapse's output is either at most
two long or made of newlines, so a second collapse finds nothing to do. -/
theorem collapseRuns_idem (l : List Char) :
    collapseRuns (collapseRuns l) = collapseRuns l := by
  generalize hn : l.length = n
  induction n using Nat.strong_induction_on generalizing l with
  | _ n ih =>
    cases l with
    | nil => simp [collapseRuns]
    | cons c rest =>
      have hstep : collapseRuns (c :: rest) =
          (if 3 ≤ (c :: rest.takeWhile (fun d => d = c)).length ∧ c ≠ '\n'
           then [c] else c :: rest.takeWhile (fun d => d = c)) ++
            collapseRuns (rest.dropWhile (fun d => d = c)) := by
        rw [collapseRuns]
      have htlen : (rest.dropWhile (fun d => d = c)).length < n := by
        have := lengthDropWhileLe (fun d => decide (d = c)) rest
        simp only [List.length_cons] at hn
        omega
      have hih : collapseRuns (collapseRuns (rest.dropWhile (fun d => d = c))) =
          collapseRuns (rest.dropWhile (fun d => d = c)) :=
        ih _ htlen _ rfl
      have hxs : ∀ d, (collapseRuns (rest.dropWhile (fun e => e = c))).head? =
          some d → d ≠ c := by
        intro d hd
        cases ht : rest.dropWhile (fun e => e = c) with
        | nil => rw [ht] at hd; simp [collapseRuns] at hd
        | cons e ts =>
          have hh := collapseRuns_head? (e :: ts) e (by simp)
          rw [ht] at hd
          rw [hh] at hd
          have : (fun e => decide (e = c)) d = false := by
            apply head?_dropWhile_false (fun e => decide (e = c)) rest
            rw [ht]
            simp only [List.head?_cons]
            simp only [Option.some.injEq] at hd
            rw [hd]
          simpa using this
      rw [hstep]
      by_cases hcond : 3 ≤ (c :: rest.takeWhile (fun d => d = c)).length ∧ c ≠ '\n'
      · rw [if_pos hcond]
        rw [collapseRuns_const_append c [c] _ rfl (by simp) hxs]
        rw [if_neg (by simp)]
        rw [hih]
      · rw [if_neg hcond]
        have hall : ∀ x ∈ c :: rest.takeWhile (fun d => d = c), x = c := by
          intro x hx
          rcases List.mem_cons.mp hx with h1 | h1
          · exact h1
          · simpa using mem_takeWhile_pred _ _ _ h1
        rw [collapseRuns_const_append c (c :: rest.takeWhile (fun d => d = c)) _
          rfl hall hxs]
        rw [if_neg hcond]
        rw [hih]

/-- C10.  _deduplicate_title is idempotent: applying the
repeated-character collapse twice gives the same string as applying it
once. -/
theorem c10_deduplicate_title_idempotent (s : String) :
    deduplicateTitle (deduplicateTitle s) = deduplicateTitle s :=
  congrArg String.mk (collapseRuns_idem s.data)
